import Mathlib

/-!
Shallow embedding of the TemperatureController firmware
(final iteration: the non-blocking `TemperatureController` sketch plus the
`StatusLeds` class).  Machine floats are modelled as exact rationals;
`unsigned long` millisecond arithmetic is modelled as `Nat` with explicit
reduction modulo `2^32`.
-/

namespace TempCtrl

/-! ### Compile-time configuration constants (from the main sketch) -/

def VREF : ℚ := 5
def LM19_V0C : ℚ := 1.8663
def LM19_SLOPE : ℚ := 0.01169
def MIN_SET_F : ℚ := 50
def MAX_SET_F : ℚ := 90
def MID_SET_F : ℚ := 72
def HYST_F : ℚ := 2
def TEMP_ALPHA : ℚ := 0.1
def TEMP_SAMPLE_MS : Nat := 250
def CONTROL_UPDATE_MS : Nat := 1000
def LED_UPDATE_MS : Nat := 200

/-- Constant `MID_RAW = 511.5f`, the centre of the 0–1023 ADC range. -/
def MID_RAW : ℚ := 511.5

/-! ### Unsigned 32-bit millisecond arithmetic -/

/-- Constant `2^32`, the modulus of Arduino `unsigned long` arithmetic. -/
def U32 : Nat := 4294967296

/-- Unsigned 32-bit subtraction `a - b`, as used in `now - last` interval
checks: correct elapsed time across a single wrap of the counter. -/
def sub32 (a b : Nat) : Nat := (a % U32 + (U32 - b % U32)) % U32

/-! ### Sensor reader (`readTemperatureC`, `readTemperatureFOnce`) -/

/-- Average of the 8 raw samples, promoted to float, then scaled to volts:
`v = (raw * VREF) / 1023.0`. -/
def voltageOf (samples : Fin 8 → Nat) : ℚ :=
  let sum : Nat := ∑ i, samples i
  let raw : ℚ := (sum : ℚ) / 8
  raw * VREF / 1023

/-- The linear LM19 transfer function `tC = (LM19_V0C - v) / LM19_SLOPE`. -/
def tempOfVoltage (v : ℚ) : ℚ := (LM19_V0C - v) / LM19_SLOPE

/-- Function `readTemperatureC()`: sum 8 ADC samples, average, convert to volts,
clamp to the sane LM19 range `[0.2, 2.8]`, apply the transfer function. -/
def readTemperatureC (samples : Fin 8 → Nat) : ℚ :=
  let v0 := voltageOf samples
  let v1 := if v0 < 0.2 then 0.2 else v0
  let v2 := if v1 > 2.8 then 2.8 else v1
  tempOfVoltage v2

/-- Function `readTemperatureFOnce()`: Celsius to Fahrenheit. -/
def readTemperatureFOnce (samples : Fin 8 → Nat) : ℚ :=
  readTemperatureC samples * 9 / 5 + 32

/-! ### Setpoint reader (`readSetpointF`) -/

/-- Segment-1 interpolation fraction, with the source's zero-span guard:
`frac = (spanRaw > 0.0f) ? (raw / spanRaw) : 0.0f` where
`spanRaw = midRaw - 0.0f`. -/
def fracLower (midRaw raw : ℚ) : ℚ :=
  let spanRaw := midRaw - 0
  if spanRaw > 0 then raw / spanRaw else 0

/-- Segment-2 interpolation fraction, with the source's zero-span guard:
`frac = (spanRaw > 0.0f) ? ((raw - midRaw) / spanRaw) : 0.0f` where
`spanRaw = fullScale - midRaw`. -/
def fracUpper (midRaw fullScale raw : ℚ) : ℚ :=
  let spanRaw := fullScale - midRaw
  if spanRaw > 0 then (raw - midRaw) / spanRaw else 0

/-- The two-segment piecewise-linear dial map of `readSetpointF`,
generalised over the configuration anchors the source fixes as
compile-time constants (`midRaw = 511.5`, `minSet = MIN_SET_F`, etc.);
the branch and guard structure is exactly the source's. -/
def setpointOfRawCfg (midRaw minSet midSet maxSet fullScale raw : ℚ) : ℚ :=
  if raw ≤ midRaw then
    minSet + (midSet - minSet) * fracLower midRaw raw
  else
    midSet + (maxSet - midSet) * fracUpper midRaw fullScale raw

/-- The value computed by `readSetpointF` for a given (float-promoted) raw
dial sample, at the source's configuration constants. -/
def setpointOfRaw (raw : ℚ) : ℚ :=
  setpointOfRawCfg MID_RAW MIN_SET_F MID_SET_F MAX_SET_F 1023 raw

/-! ### Global state of the main sketch -/

/-- The module-scope mutable variables of the main sketch, together with the
SSR output pin level. -/
structure St where
  filteredTempF : ℚ
  heaterOn : Bool
  inDeadband : Bool
  setPointF : ℚ
  lastTempSampleMs : Nat
  lastControlMs : Nat
  ssrPin : Bool
deriving DecidableEq, Repr

/-- The initialisation-section values of the globals, with the SSR driven
LOW by `setup()`. -/
def st0 : St :=
  { filteredTempF := 72, heaterOn := false, inDeadband := false
  , setPointF := 72, lastTempSampleMs := 0, lastControlMs := 0
  , ssrPin := false }

/-- Function `readSetpointF()`: reads one raw dial sample and maps it through the
two-segment interpolation.  Returns the mapped value and the updated
globals: only the upper branch (`raw > MID_RAW`) assigns the global
`setPointF`; the lower branch returns its value without storing it. -/
def readSetpointF (rawADC : Nat) (st : St) : ℚ × St :=
  let raw : ℚ := rawADC
  if raw ≤ MID_RAW then
    (MIN_SET_F + (MID_SET_F - MIN_SET_F) * fracLower MID_RAW raw, st)
  else
    let sp := MID_SET_F + (MAX_SET_F - MID_SET_F) * fracUpper MID_RAW 1023 raw
    (sp, { st with setPointF := sp })

/-! ### Scheduled tasks -/

/-- Task `taskSampleTemperature(now)`: runs only when
`now - lastTempSampleMs >= TEMP_SAMPLE_MS` (unsigned subtraction); then
stamps `lastTempSampleMs = now` and folds a fresh reading into the EMA
`filteredTempF = filteredTempF*(1-alpha) + raw*alpha`. -/
def taskSampleTemperature (now : Nat) (samples : Fin 8 → Nat) (st : St) : St :=
  if sub32 now st.lastTempSampleMs < TEMP_SAMPLE_MS then st
  else
    let tempFraw := readTemperatureFOnce samples
    { st with
      lastTempSampleMs := now
      filteredTempF := st.filteredTempF * (1 - TEMP_ALPHA) + tempFraw * TEMP_ALPHA }

/-- Task `taskUpdateControl(now)`: runs only when
`now - lastControlMs >= CONTROL_UPDATE_MS`; then reads the setpoint,
applies the half-band hysteresis rule to the filtered temperature, stores
the resulting heater state and drives the SSR pin to match it. -/
def taskUpdateControl (now : Nat) (potRaw : Nat) (st : St) : St :=
  if sub32 now st.lastControlMs < CONTROL_UPDATE_MS then st
  else
    let st1 := { st with lastControlMs := now }
    let r := readSetpointF potRaw st1
    let setF := r.1
    let st2 := r.2
    let tempF := st2.filteredTempF
    let halfBand := HYST_F * 0.5
    let wantOn :=
      if tempF ≤ setF - halfBand then true
      else if tempF ≥ setF + halfBand then false
      else st2.heaterOn
    let deadband :=
      if tempF ≤ setF - halfBand then false
      else if tempF ≥ setF + halfBand then false
      else true
    { st2 with heaterOn := wantOn, inDeadband := deadband, ssrPin := wantOn }

/-! ### StatusLeds class -/

/-- Enumeration `StatusLeds::Region`. -/
inductive Region : Type
  | Below
  | InBandBelow
  | AtSetPoint
  | InBandAbove
  | Above
deriving DecidableEq, Repr

/-- The fields of a `StatusLeds` object (pin numbers elided; the three
output pin levels are carried directly), plus the levels of the three
indicator lines. -/
structure StatusLeds where
  hysteresisF : ℚ
  updateIntervalMs : Nat
  lastUpdate : Nat
  region : Region
  lastRegion : Region
  aboveOut : Bool
  inBandOut : Bool
  belowOut : Bool
deriving DecidableEq, Repr

/-- Constructor followed by `begin()`: `_lastUpdate = 0`, both regions
`AtSetPoint`, all three indicator lines driven LOW. -/
def statusLedsInit (hysteresisF : ℚ) (updateIntervalMs : Nat) : StatusLeds :=
  { hysteresisF := hysteresisF, updateIntervalMs := updateIntervalMs
  , lastUpdate := 0, region := Region.AtSetPoint, lastRegion := Region.AtSetPoint
  , aboveOut := false, inBandOut := false, belowOut := false }

/-- The sketch's `statusLeds` object: `StatusLeds(..., HYST_F, LED_UPDATE_MS)`
after `begin()`. -/
def ledsInit : StatusLeds := statusLedsInit HYST_F LED_UPDATE_MS

/-- The branch cascade of `StatusLeds::setDisplayState`, as a pure
classification of `(hysteresisF, tempF, setPointF)`. -/
def classifyRegion (hysteresisF tempF setPointF : ℚ) : Region :=
  let halfBand := hysteresisF * 0.5
  if tempF < setPointF - halfBand then Region.Below
  else if tempF ≥ setPointF - halfBand ∧ tempF ≤ setPointF then Region.InBandBelow
  else if tempF ≤ setPointF + halfBand ∧ tempF ≥ setPointF then Region.InBandAbove
  else if tempF > setPointF + halfBand then Region.Above
  else Region.AtSetPoint

/-- Method `StatusLeds::setDisplayState(tempF, setPointF)`: stores the computed
region; touches nothing else. -/
def setDisplayState (tempF setPointF : ℚ) (s : StatusLeds) : StatusLeds :=
  { s with region := classifyRegion s.hysteresisF tempF setPointF }

/-- The `switch (_region)` table of `StatusLeds::updateLEDs`, returning
`(aboveOn, inBandOn, belowOn)`. -/
def regionPins : Region → Bool × Bool × Bool
  | Region.Below => (false, false, true)
  | Region.InBandBelow => (false, true, true)
  | Region.AtSetPoint => (false, true, false)
  | Region.InBandAbove => (true, true, false)
  | Region.Above => (true, false, false)

/-- Method `StatusLeds::updateLEDs(now)`, also reporting whether the indicator
lines were written this call.  Early return when
`now - _lastUpdate < _updateIntervalMs`; otherwise stamp `_lastUpdate`,
early return when the region is unchanged, otherwise record the region
and drive the three indicator lines from the switch table. -/
def updateLEDsW (now : Nat) (s : StatusLeds) : StatusLeds × Bool :=
  if sub32 now s.lastUpdate < s.updateIntervalMs then (s, false)
  else
    let s1 := { s with lastUpdate := now }
    if s1.region = s1.lastRegion then (s1, false)
    else
      let s2 := { s1 with lastRegion := s1.region }
      let p := regionPins s2.region
      ({ s2 with aboveOut := p.1, inBandOut := p.2.1, belowOut := p.2.2 }, true)

/-- Method `StatusLeds::updateLEDs(now)`: just the state effect. -/
def updateLEDs (now : Nat) (s : StatusLeds) : StatusLeds :=
  (updateLEDsW now s).1

/-! ### The main loop and display traces -/

/-- One iteration of `loop()`: sample task, control task, then
`setDisplayState(filteredTempF, setPointF)` from the globals, then
`updateLEDs(now)`. -/
def loopIter (now : Nat) (tempSamples : Fin 8 → Nat) (potRaw : Nat)
    (st : St) (leds : StatusLeds) : St × StatusLeds :=
  let st1 := taskSampleTemperature now tempSamples st
  let st2 := taskUpdateControl now potRaw st1
  let leds1 := setDisplayState st2.filteredTempF st2.setPointF leds
  let leds2 := updateLEDs now leds1
  (st2, leds2)

/-- One display event: the region just computed by `setDisplayState` is
stored, then `updateLEDs` runs at the given time. -/
def ledEventStep (s : StatusLeds) (ev : Nat × Region) : StatusLeds × Bool :=
  updateLEDsW ev.1 { s with region := ev.2 }

/-- The (time, region) pairs at which a sequence of display events
actually rewrites the indicator lines. -/
def ledWriteLog (s : StatusLeds) : List (Nat × Region) → List (Nat × Region)
  | [] => []
  | ev :: evs =>
    let r := ledEventStep s ev
    if r.2 then (ev.1, ev.2) :: ledWriteLog r.1 evs
    else ledWriteLog r.1 evs

/-- A concrete global state for exercising the staleness of the display's
setpoint: filtered temperature 60, global `setPointF` still at its
initial 72, temperature task just stamped, control task due. -/
def stStale : St :=
  { filteredTempF := 60, heaterOn := false, inDeadband := false
  , setPointF := 72, lastTempSampleMs := 1000, lastControlMs := 0
  , ssrPin := false }

/-- The two-part write gate of the display protocol, as a relation between
consecutive indicator writes `(time, region)`: the later write is at least
`interval` milliseconds after the earlier one and records a different
region. -/
def WriteStep (interval : Nat) (a b : Nat × Region) : Prop :=
  interval ≤ b.1 - a.1 ∧ b.2 ≠ a.2

/-! ### Helper lemmas -/

/-- Unsigned 32-bit subtraction agrees with exact subtraction when no wrap
occurred. -/
theorem sub32_eq_sub (a b : Nat) (hb : b ≤ a) (ha : a < U32) :
    sub32 a b = a - b := by
  unfold sub32 U32 at *
  omega

/-- Unsigned 32-bit subtraction recovers the elapsed time across a single
wrap of the millisecond counter. -/
theorem sub32_wrap (b d : Nat) (hb : b < U32) (hd : d < U32) :
    sub32 ((b + d) % U32) b = d := by
  unfold sub32 U32 at *
  omega

/-- Function `readSetpointF` returns the value of the pure two-segment map. -/
theorem readSetpointF_fst (p : Nat) (st : St) :
    (readSetpointF p st).1 = setpointOfRaw (p : ℚ) := by
  simp only [readSetpointF, setpointOfRaw, setpointOfRawCfg]
  split_ifs <;> rfl

/-- Function `readSetpointF` never touches `filteredTempF`. -/
theorem readSetpointF_filtered (p : Nat) (st : St) :
    (readSetpointF p st).2.filteredTempF = st.filteredTempF := by
  simp only [readSetpointF]
  split_ifs <;> rfl

/-- Function `readSetpointF` never touches `heaterOn`. -/
theorem readSetpointF_heater (p : Nat) (st : St) :
    (readSetpointF p st).2.heaterOn = st.heaterOn := by
  simp only [readSetpointF]
  split_ifs <;> rfl

/-- Method `updateLEDs` early-returns when the debounce interval has not elapsed. -/
theorem updateLEDsW_skip (now : Nat) (s : StatusLeds)
    (h : sub32 now s.lastUpdate < s.updateIntervalMs) :
    updateLEDsW now s = (s, false) := by
  simp only [updateLEDsW, if_pos h]

/-- Method `updateLEDs` stamps `_lastUpdate` but writes nothing when the region is
unchanged. -/
theorem updateLEDsW_same (now : Nat) (s : StatusLeds)
    (h1 : ¬ sub32 now s.lastUpdate < s.updateIntervalMs)
    (h2 : s.region = s.lastRegion) :
    updateLEDsW now s = ({ s with lastUpdate := now }, false) := by
  simp only [updateLEDsW, if_neg h1]
  exact if_pos h2

/-- Method `updateLEDs` writes the switch-table pin levels when the gate passes and
the region changed. -/
theorem updateLEDsW_write (now : Nat) (s : StatusLeds)
    (h1 : ¬ sub32 now s.lastUpdate < s.updateIntervalMs)
    (h2 : ¬ s.region = s.lastRegion) :
    updateLEDsW now s =
      ({ s with
          lastUpdate := now,
          lastRegion := s.region,
          aboveOut := (regionPins s.region).1,
          inBandOut := (regionPins s.region).2.1,
          belowOut := (regionPins s.region).2.2 }, true) := by
  simp only [updateLEDsW, if_neg h1]
  exact if_neg h2

/-- A nondecreasing chain of times stays a chain under a smaller base. -/
theorem chain_le_mono {a b : Nat} {l : List Nat} (hab : a ≤ b)
    (h : List.Chain (fun x y => x ≤ y) b l) :
    List.Chain (fun x y => x ≤ y) a l := by
  cases h with
  | nil => exact List.Chain.nil
  | cons hd tl => exact List.Chain.cons (le_trans hab hd) tl

/-- Closed form of the dial map on segment 1. -/
theorem setpointOfRaw_lower (r : ℚ) (h : r ≤ MID_RAW) :
    setpointOfRaw r = MIN_SET_F + (MID_SET_F - MIN_SET_F) * (r / MID_RAW) := by
  simp only [setpointOfRaw, setpointOfRawCfg, fracLower, if_pos h, sub_zero]
  rw [if_pos (by norm_num [MID_RAW])]

/-- Closed form of the dial map on segment 2. -/
theorem setpointOfRaw_upper (r : ℚ) (h : MID_RAW < r) :
    setpointOfRaw r =
      MID_SET_F + (MAX_SET_F - MID_SET_F) * ((r - MID_RAW) / (1023 - MID_RAW)) := by
  simp only [setpointOfRaw, setpointOfRawCfg, fracUpper]
  rw [if_neg (not_le.mpr h), if_pos (by norm_num [MID_RAW])]

/-! ### Claim theorems -/

/-- C6: the setpoint mapping hits its configured anchors exactly
(`raw=0 ↦ minSetpoint`, `raw=midRaw ↦ midSetpoint`,
`raw=fullScaleMax ↦ maxSetpoint`) and is monotone (≤-preserving) within
each segment; and the value `readSetpointF` computes is exactly this
mapping of the raw dial sample. -/
theorem setpoint_map_anchors :
    setpointOfRaw 0 = MIN_SET_F ∧
    setpointOfRaw MID_RAW = MID_SET_F ∧
    setpointOfRaw 1023 = MAX_SET_F ∧
    (∀ r1 r2 : ℚ, 0 ≤ r1 → r1 ≤ r2 → r2 ≤ MID_RAW →
      setpointOfRaw r1 ≤ setpointOfRaw r2) ∧
    (∀ r1 r2 : ℚ, MID_RAW ≤ r1 → r1 ≤ r2 → r2 ≤ 1023 →
      setpointOfRaw r1 ≤ setpointOfRaw r2) ∧
    (∀ (p : Nat) (st : St), (readSetpointF p st).1 = setpointOfRaw (p : ℚ)) := by
  refine ⟨?_, ?_, ?_, ?_, ?_, readSetpointF_fst⟩
  · rw [setpointOfRaw_lower 0 (by norm_num [MID_RAW])]
    norm_num
  · rw [setpointOfRaw_lower MID_RAW le_rfl]
    norm_num [MID_RAW, MIN_SET_F, MID_SET_F]
  · rw [setpointOfRaw_upper 1023 (by norm_num [MID_RAW])]
    norm_num [MID_RAW, MID_SET_F, MAX_SET_F]
  · intro r1 r2 h0 h12 h2
    rw [setpointOfRaw_lower r1 (le_trans h12 h2), setpointOfRaw_lower r2 h2]
    have hm : (0:ℚ) < MID_RAW := by norm_num [MID_RAW]
    have : r1 / MID_RAW ≤ r2 / MID_RAW := div_le_div_of_nonneg_right h12 hm.le
    norm_num [MIN_SET_F, MID_SET_F]
    linarith
  · intro r1 r2 h1 h12 h2
    rcases eq_or_lt_of_le h1 with he | hlt
    · rw [setpointOfRaw_lower r1 he.symm.le]
      rcases eq_or_lt_of_le (he.le.trans h12) with he2 | hlt2
      · rw [setpointOfRaw_lower r2 he2.symm.le]
        rw [← he, ← he2]
      · rw [setpointOfRaw_upper r2 hlt2, ← he]
        have hnum : (0:ℚ) ≤ (MAX_SET_F - MID_SET_F) * ((r2 - MID_RAW) / (1023 - MID_RAW)) := by
          apply mul_nonneg (by norm_num [MAX_SET_F, MID_SET_F])
          apply div_nonneg (by linarith) (by norm_num [MID_RAW])
        have hends : MIN_SET_F + (MID_SET_F - MIN_SET_F) * (MID_RAW / MID_RAW) = MID_SET_F := by
          norm_num [MID_RAW, MIN_SET_F, MID_SET_F]
        rw [hends]
        linarith
    · rw [setpointOfRaw_upper r1 hlt, setpointOfRaw_upper r2 (lt_of_lt_of_le hlt h12)]
      have : (r1 - MID_RAW) / (1023 - MID_RAW) ≤ (r2 - MID_RAW) / (1023 - MID_RAW) :=
        div_le_div_of_nonneg_right (by linarith) (by norm_num [MID_RAW])
      norm_num [MID_SET_F, MAX_SET_F]
      linarith

/-- C6 witness: segment-1 monotonicity applied at raw values 100 and 200. -/
theorem setpoint_map_anchors_witness :
    setpointOfRaw 100 ≤ setpointOfRaw 200 :=
  setpoint_map_anchors.2.2.2.1 100 200 (by norm_num) (by norm_num)
    (by norm_num [MID_RAW])

/-- C9: each segment's interpolation fraction is defined for every input:
a zero-span segment yields the fraction `0` instead of a division by zero,
and under the fully degenerate configuration (`midRaw = fullScale = 0`)
the map still returns a defined anchor value for every raw sample. -/
theorem setpoint_zero_span_defined :
    (∀ midRaw raw : ℚ, midRaw - 0 = 0 → fracLower midRaw raw = 0) ∧
    (∀ midRaw fullScale raw : ℚ, fullScale - midRaw = 0 →
      fracUpper midRaw fullScale raw = 0) ∧
    (∀ minSet midSet maxSet raw : ℚ,
      (raw ≤ 0 → setpointOfRawCfg 0 minSet midSet maxSet 0 raw = minSet) ∧
      (0 < raw → setpointOfRawCfg 0 minSet midSet maxSet 0 raw = midSet)) := by
  refine ⟨?_, ?_, ?_⟩
  · intro midRaw raw h
    simp only [fracLower, h]
    norm_num
  · intro midRaw fullScale raw h
    simp only [fracUpper, h]
    norm_num
  · intro minSet midSet maxSet raw
    constructor
    · intro h
      simp only [setpointOfRawCfg, fracLower, if_pos h]
      norm_num
    · intro h
      simp only [setpointOfRawCfg, fracUpper]
      rw [if_neg (by linarith)]
      norm_num

/-- C9 witness: a zero-span lower segment yields fraction `0` at raw = 7,
and the degenerate configuration still returns the `minSet` anchor. -/
theorem setpoint_zero_span_defined_witness :
    fracLower 0 7 = 0 ∧ setpointOfRawCfg 0 50 72 90 0 0 = 50 :=
  ⟨setpoint_zero_span_defined.1 0 7 (by norm_num),
   (setpoint_zero_span_defined.2.2 50 72 90 0).1 (by norm_num)⟩

/-- C8: `readTemperatureC` clamps the computed voltage to `[0.2, 2.8]`
before applying the linear transfer function: any sample sequence whose
averaged voltage is below `0.2` yields the temperature of exactly `0.2`
volts, symmetrically for `2.8`, and in-range voltages pass through
unchanged — every 8-sample input produces a temperature. -/
theorem sensor_voltage_clamp :
    (∀ samples : Fin 8 → Nat, voltageOf samples < 0.2 →
      readTemperatureC samples = tempOfVoltage 0.2) ∧
    (∀ samples : Fin 8 → Nat, 2.8 < voltageOf samples →
      readTemperatureC samples = tempOfVoltage 2.8) ∧
    (∀ samples : Fin 8 → Nat, 0.2 ≤ voltageOf samples → voltageOf samples ≤ 2.8 →
      readTemperatureC samples = tempOfVoltage (voltageOf samples)) := by
  refine ⟨?_, ?_, ?_⟩
  · intro samples h
    simp only [readTemperatureC]
    split_ifs <;> first | rfl | linarith
  · intro samples h
    simp only [readTemperatureC]
    split_ifs <;> first | rfl | linarith
  · intro samples h1 h2
    simp only [readTemperatureC]
    split_ifs <;> first | rfl | linarith

/-- C8 witness: the all-zero sample sequence has voltage `0 < 0.2` and
reads the same temperature as a `0.2` volt input. -/
theorem sensor_voltage_clamp_witness :
    readTemperatureC (fun _ => 0) = tempOfVoltage 0.2 :=
  sensor_voltage_clamp.1 (fun _ => 0)
    (by norm_num [voltageOf, VREF, Fin.sum_univ_eight])

/-- C4 counterexample: at exact equality `tempF = setPointF = 72` (with the
program's hysteresis) `setDisplayState` yields `InBandBelow`, not the
`AtSetpoint` the claim predicts. -/
theorem display_equality_counterexample :
    (setDisplayState 72 72 ledsInit).region = Region.InBandBelow ∧
    Region.InBandBelow ≠ Region.AtSetPoint := by
  constructor
  · norm_num [setDisplayState, classifyRegion, ledsInit, statusLedsInit, HYST_F]
  · decide

/-- C4 (amended): `setDisplayState` is a pure deterministic classification
with `halfBand = hysteresisWidth/2` (hysteresis nonnegative):
`temp < setpoint - halfBand` gives `Below`;
`setpoint - halfBand ≤ temp ≤ setpoint` gives `InBandBelow` — in
particular exact equality gives `InBandBelow`, never `AtSetPoint`;
`setpoint < temp ≤ setpoint + halfBand` gives `InBandAbove`;
`temp > setpoint + halfBand` gives `Above`; and repeated calls with fixed
inputs yield the same region. -/
theorem display_classification (ld : StatusLeds) (t s : ℚ)
    (hh : 0 ≤ ld.hysteresisF) :
    (t < s - ld.hysteresisF / 2 → (setDisplayState t s ld).region = Region.Below) ∧
    (s - ld.hysteresisF / 2 ≤ t → t ≤ s →
      (setDisplayState t s ld).region = Region.InBandBelow) ∧
    (s < t → t ≤ s + ld.hysteresisF / 2 →
      (setDisplayState t s ld).region = Region.InBandAbove) ∧
    (s + ld.hysteresisF / 2 < t → (setDisplayState t s ld).region = Region.Above) ∧
    (setDisplayState t s (setDisplayState t s ld)).region =
      (setDisplayState t s ld).region := by
  have hB : ld.hysteresisF * 0.5 = ld.hysteresisF / 2 := by ring
  refine ⟨?_, ?_, ?_, ?_, rfl⟩ <;>
    simp only [setDisplayState, classifyRegion, hB]
  · intro h
    rw [if_pos h]
  · intro h1 h2
    rw [if_neg (by push_neg; exact h1), if_pos ⟨h1, h2⟩]
  · intro h1 h2
    rw [if_neg (by push_neg; linarith),
      if_neg (by push_neg; intro _; linarith), if_pos ⟨h2, le_of_lt h1⟩]
  · intro h
    rw [if_neg (by push_neg; linarith), if_neg (by push_neg; intro _; linarith),
      if_neg (by push_neg; intro _; linarith), if_pos h]

/-- C4 witness: on the program's display object, `temp = 71.5` against
`setpoint = 72` lies in the lower half-band and classifies `InBandBelow`. -/
theorem display_classification_witness :
    (setDisplayState 71.5 72 ledsInit).region = Region.InBandBelow :=
  (display_classification ledsInit 71.5 72
      (by norm_num [ledsInit, statusLedsInit, HYST_F])).2.1
    (by norm_num [ledsInit, statusLedsInit, HYST_F]) (by norm_num)

/-- C10: `setDisplayState` never assigns `AtSetPoint` (for any object
state and any rational inputs); exact equality `tempF = setPointF` is
classified `InBandBelow` by the branch ordering (for nonnegative
hysteresis, as configured); `AtSetPoint` occurs only as the constructor's
initial value of `_region` and `_lastRegion`. -/
theorem display_no_AtSetPoint :
    (∀ (ld : StatusLeds) (t s : ℚ),
      (setDisplayState t s ld).region ≠ Region.AtSetPoint) ∧
    (∀ (ld : StatusLeds) (t s : ℚ), 0 ≤ ld.hysteresisF → t = s →
      (setDisplayState t s ld).region = Region.InBandBelow) ∧
    ledsInit.region = Region.AtSetPoint ∧
    ledsInit.lastRegion = Region.AtSetPoint := by
  refine ⟨?_, ?_, rfl, rfl⟩
  · intro ld t s
    simp only [setDisplayState, classifyRegion]
    split_ifs with h1 h2 h3 h4 <;> simp only [ne_eq, reduceCtorEq, not_false_eq_true]
    push_neg at h1 h2 h3 h4
    exact absurd (h3 (h4.trans (by linarith [h2 h1]))).le (not_le.mpr (h2 h1))
  · intro ld t s hh he
    simp only [setDisplayState, classifyRegion]
    rw [if_neg (by push_neg; linarith), if_pos ⟨by linarith, by linarith⟩]

/-- C10 witness: on the program's display object, equal inputs `70, 70`
classify `InBandBelow`. -/
theorem display_no_AtSetPoint_witness :
    (setDisplayState 70 70 ledsInit).region = Region.InBandBelow :=
  display_no_AtSetPoint.2.1 ledsInit 70 70
    (by norm_num [ledsInit, statusLedsInit, HYST_F]) rfl

/-- C2: a task body executes iff `now - lastRunTimestamp >= intervalMs`
under unsigned 32-bit subtraction, in which case `lastRunTimestamp := now`;
the unsigned difference is the true elapsed time across a single wrap of
the counter; and after a run at `now1`, no further run happens at any poll
`now2` less than the interval after `now1` — never twice within a window
shorter than the interval. -/
theorem scheduler_gate :
    (∀ (now : Nat) (samples : Fin 8 → Nat) (st : St),
      sub32 now st.lastTempSampleMs < TEMP_SAMPLE_MS →
      taskSampleTemperature now samples st = st) ∧
    (∀ (now : Nat) (samples : Fin 8 → Nat) (st : St),
      TEMP_SAMPLE_MS ≤ sub32 now st.lastTempSampleMs →
      (taskSampleTemperature now samples st).lastTempSampleMs = now ∧
      (taskSampleTemperature now samples st).filteredTempF =
        st.filteredTempF * (1 - TEMP_ALPHA) + readTemperatureFOnce samples * TEMP_ALPHA) ∧
    (∀ last d : Nat, last < U32 → d < U32 →
      sub32 ((last + d) % U32) last = d) ∧
    (∀ (now1 now2 : Nat) (s1 s2 : Fin 8 → Nat) (st : St),
      TEMP_SAMPLE_MS ≤ sub32 now1 st.lastTempSampleMs →
      sub32 now2 now1 < TEMP_SAMPLE_MS →
      taskSampleTemperature now2 s2 (taskSampleTemperature now1 s1 st) =
        taskSampleTemperature now1 s1 st) := by
  refine ⟨?_, ?_, sub32_wrap, ?_⟩
  · intro now samples st h
    simp only [taskSampleTemperature, if_pos h]
  · intro now samples st h
    constructor
    · simp only [taskSampleTemperature, if_neg (not_lt.mpr h)]
    · simp only [taskSampleTemperature, if_neg (not_lt.mpr h)]
  · intro now1 now2 s1 s2 st h1 h2
    have hl : (taskSampleTemperature now1 s1 st).lastTempSampleMs = now1 := by
      simp only [taskSampleTemperature, if_neg (not_lt.mpr h1)]
    generalize taskSampleTemperature now1 s1 st = X at hl ⊢
    simp only [taskSampleTemperature, hl, if_pos h2]

/-- C2 witness: from the initial state a run at 250 ms happens, and a
second poll at 400 ms (150 ms later, less than the 250 ms interval) leaves
the state untouched. -/
theorem scheduler_gate_witness :
    taskSampleTemperature 400 (fun _ => 0) (taskSampleTemperature 250 (fun _ => 0) st0) =
      taskSampleTemperature 250 (fun _ => 0) st0 :=
  scheduler_gate.2.2.2 250 400 (fun _ => 0) (fun _ => 0) st0 (by decide) (by decide)

/-- C1: on every control tick that actually executes, with filtered
temperature `t`, freshly read setpoint `s` and half-band `HYST_F / 2`:
`t ≤ s - h` forces the heater ON, `t ≥ s + h` forces it OFF, strictly
inside the band the prior state is retained, and in every case the SSR
output equals the resulting heater state in that same tick. -/
theorem control_tick_hysteresis (now potRaw : Nat) (st : St)
    (hrun : CONTROL_UPDATE_MS ≤ sub32 now st.lastControlMs) :
    (st.filteredTempF ≤ (readSetpointF potRaw st).1 - HYST_F / 2 →
      (taskUpdateControl now potRaw st).heaterOn = true) ∧
    ((readSetpointF potRaw st).1 + HYST_F / 2 ≤ st.filteredTempF →
      (taskUpdateControl now potRaw st).heaterOn = false) ∧
    ((readSetpointF potRaw st).1 - HYST_F / 2 < st.filteredTempF →
      st.filteredTempF < (readSetpointF potRaw st).1 + HYST_F / 2 →
      (taskUpdateControl now potRaw st).heaterOn = st.heaterOn) ∧
    (taskUpdateControl now potRaw st).ssrPin = (taskUpdateControl now potRaw st).heaterOn := by
  have hgate : ¬ sub32 now st.lastControlMs < CONTROL_UPDATE_MS := not_lt.mpr hrun
  have hB : HYST_F * 0.5 = HYST_F / 2 := by norm_num [HYST_F]
  have hHpos : (0:ℚ) < HYST_F := by norm_num [HYST_F]
  simp only [taskUpdateControl, if_neg hgate, readSetpointF_fst,
    readSetpointF_filtered, readSetpointF_heater, hB]
  refine ⟨?_, ?_, ?_, ?_⟩
  · intro h
    rw [if_pos h]
  · intro h
    rw [if_neg (by linarith), if_pos (by linarith)]
  · intro h1 h2
    rw [if_neg (by linarith), if_neg (by linarith)]
  · trivial

/-- C1 witness: a control tick executing at 1000 ms from the initial state
drives the SSR to match the heater state. -/
theorem control_tick_hysteresis_witness :
    (taskUpdateControl 1000 0 st0).ssrPin = (taskUpdateControl 1000 0 st0).heaterOn :=
  (control_tick_hysteresis 1000 0 st0 (by decide)).2.2.2

/-- C7: when `updateLEDs` performs an indicator write, the three lines
`(above, inBand, below)` are set exactly to the fixed combination for the
region being displayed: `Below ↦ (0,0,1)`, `InBandBelow ↦ (0,1,1)`,
`AtSetPoint ↦ (0,1,0)`, `InBandAbove ↦ (1,1,0)`, `Above ↦ (1,0,0)`. -/
theorem led_write_pin_table (now : Nat) (s : StatusLeds)
    (hgate : s.updateIntervalMs ≤ sub32 now s.lastUpdate)
    (hchg : s.region ≠ s.lastRegion) :
    (updateLEDsW now s).2 = true ∧
    (s.region = Region.Below → (updateLEDs now s).aboveOut = false ∧
      (updateLEDs now s).inBandOut = false ∧ (updateLEDs now s).belowOut = true) ∧
    (s.region = Region.InBandBelow → (updateLEDs now s).aboveOut = false ∧
      (updateLEDs now s).inBandOut = true ∧ (updateLEDs now s).belowOut = true) ∧
    (s.region = Region.AtSetPoint → (updateLEDs now s).aboveOut = false ∧
      (updateLEDs now s).inBandOut = true ∧ (updateLEDs now s).belowOut = false) ∧
    (s.region = Region.InBandAbove → (updateLEDs now s).aboveOut = true ∧
      (updateLEDs now s).inBandOut = true ∧ (updateLEDs now s).belowOut = false) ∧
    (s.region = Region.Above → (updateLEDs now s).aboveOut = true ∧
      (updateLEDs now s).inBandOut = false ∧ (updateLEDs now s).belowOut = false) := by
  have hw := updateLEDsW_write now s (not_lt.mpr hgate) hchg
  rw [updateLEDs, hw]
  refine ⟨rfl, ?_, ?_, ?_, ?_, ?_⟩ <;> intro h <;>
    simp [h, regionPins]

/-- C7 witness: with region `Below` pending against last region
`AtSetPoint` and the debounce expired, the write occurs. -/
theorem led_write_pin_table_witness :
    (updateLEDsW 200 { ledsInit with region := Region.Below }).2 = true :=
  (led_write_pin_table 200 { ledsInit with region := Region.Below }
    (by decide) (by decide)).1

/-- Along any display trace with nondecreasing in-range timestamps, the
successive indicator writes (seeded with the virtual initial write carried
by `_lastUpdate`/`_lastRegion`) are separated by at least the update
interval and always record a changed region. -/
theorem ledWriteLog_chain (interval : Nat) :
    ∀ (evs : List (Nat × Region)) (s : StatusLeds) (wt : Nat),
      s.updateIntervalMs = interval →
      wt ≤ s.lastUpdate → s.lastUpdate < U32 →
      List.Chain (fun x y => x ≤ y) s.lastUpdate (evs.map Prod.fst) →
      (∀ ev ∈ evs, ev.1 < U32) →
      List.Chain (WriteStep interval) (wt, s.lastRegion) (ledWriteLog s evs)
  | [], s, wt, hi, hwt, hlt, _, _ => by
    simp only [ledWriteLog]
    exact List.Chain.nil
  | (now, reg) :: evs, s, wt, hi, hwt, hlt, hchain, hbound => by
    have hnow : s.lastUpdate ≤ now := by
      cases hchain with
      | cons h _ => exact h
    have htail : List.Chain (fun x y => x ≤ y) now (evs.map Prod.fst) := by
      cases hchain with
      | cons _ h => exact h
    have hnowU : now < U32 := hbound (now, reg) (by simp)
    have hbtail : ∀ ev ∈ evs, ev.1 < U32 := fun ev hm => hbound ev (by simp [hm])
    by_cases hg : sub32 now s.lastUpdate < s.updateIntervalMs
    · have hstep : ledEventStep s (now, reg) = ({ s with region := reg }, false) :=
        updateLEDsW_skip now { s with region := reg } hg
      rw [ledWriteLog, hstep]
      simp only [Bool.false_eq_true, if_false]
      exact ledWriteLog_chain interval evs { s with region := reg } wt hi hwt hlt
        (chain_le_mono hnow htail) hbtail
    · by_cases hr : reg = s.lastRegion
      · have hstep : ledEventStep s (now, reg) =
            ({ s with region := reg, lastUpdate := now }, false) :=
          updateLEDsW_same now { s with region := reg } hg hr
        rw [ledWriteLog, hstep]
        simp only [Bool.false_eq_true, if_false]
        exact ledWriteLog_chain interval evs { s with region := reg, lastUpdate := now }
          wt hi (le_trans hwt hnow) hnowU htail hbtail
      · have hstep : ledEventStep s (now, reg) =
            ({ s with
                region := reg,
                lastUpdate := now,
                lastRegion := reg,
                aboveOut := (regionPins reg).1,
                inBandOut := (regionPins reg).2.1,
                belowOut := (regionPins reg).2.2 }, true) :=
          updateLEDsW_write now { s with region := reg } hg hr
        rw [ledWriteLog, hstep]
        simp only [if_true]
        apply List.Chain.cons
        · constructor
          · rw [sub32_eq_sub now s.lastUpdate hnow hnowU] at hg
            rw [hi] at hg
            omega
          · exact hr
        · exact ledWriteLog_chain interval evs
            { s with
              region := reg,
              lastUpdate := now,
              lastRegion := reg,
              aboveOut := (regionPins reg).1,
              inBandOut := (regionPins reg).2.1,
              belowOut := (regionPins reg).2.2 }
            now hi le_rfl hnowU htail hbtail

/-- C3: indicator lines are rewritten only when at least the update
interval has elapsed since the last indicator write AND the new region
differs from the region in effect at that write (consecutive entries of
the write log, seeded with the initial virtual write, satisfy the
two-part gate); in particular the region sequence
`[Below, Below, InBandBelow]` at `t = 0, 50, 250` with
`updateInterval = 200` produces exactly one write, at `t = 250`. -/
theorem led_write_protocol :
    (∀ (interval : Nat) (evs : List (Nat × Region)) (s : StatusLeds) (wt : Nat),
      s.updateIntervalMs = interval →
      wt ≤ s.lastUpdate → s.lastUpdate < U32 →
      List.Chain (fun x y => x ≤ y) s.lastUpdate (evs.map Prod.fst) →
      (∀ ev ∈ evs, ev.1 < U32) →
      List.Chain (WriteStep interval) (wt, s.lastRegion) (ledWriteLog s evs)) ∧
    ledWriteLog ledsInit [(0, Region.Below), (50, Region.Below), (250, Region.InBandBelow)]
      = [(250, Region.InBandBelow)] :=
  ⟨ledWriteLog_chain, by decide⟩

/-- C3 witness: the gating property applied to the claim's scenario trace
on the program's display object. -/
theorem led_write_protocol_witness :
    List.Chain (WriteStep LED_UPDATE_MS) (0, Region.AtSetPoint)
      (ledWriteLog ledsInit [(0, Region.Below), (50, Region.Below), (250, Region.InBandBelow)]) :=
  led_write_protocol.1 LED_UPDATE_MS
    [(0, Region.Below), (50, Region.Below), (250, Region.InBandBelow)]
    ledsInit 0 rfl le_rfl (by decide)
    (by simp [List.chain_cons, ledsInit, statusLedsInit]) (by decide)

/-- C5: `readSetpointF` assigns the global `setPointF` only in its upper
branch: for raw samples `≤ MID_RAW` the state is returned unchanged while
the freshly mapped value is only returned; for raw samples `> MID_RAW`
the global is set to the returned value.  Consequently, in a loop
iteration from `stStale` (global setpoint 72, dial at 0), the controller
decides with setpoint 50 and turns the heater OFF, while the display
consumes the stale global 72 and shows `Below` — a region computed
against a setpoint different from the one the heater just used. -/
theorem readSetpointF_frame_effect :
    (∀ (p : Nat) (st : St), (p : ℚ) ≤ MID_RAW →
      (readSetpointF p st).2 = st) ∧
    (∀ (p : Nat) (st : St), ¬ (p : ℚ) ≤ MID_RAW →
      (readSetpointF p st).2 = { st with setPointF := (readSetpointF p st).1 }) ∧
    ((readSetpointF 0 stStale).1 = 50 ∧
     (loopIter 1000 (fun _ => 0) 0 stStale ledsInit).1.setPointF = 72 ∧
     (loopIter 1000 (fun _ => 0) 0 stStale ledsInit).1.heaterOn = false ∧
     (loopIter 1000 (fun _ => 0) 0 stStale ledsInit).2.region = Region.Below) := by
  refine ⟨?_, ?_, ?_, ?_, ?_, ?_⟩
  · intro p st h
    simp only [readSetpointF, if_pos h]
  · intro p st h
    simp only [readSetpointF, if_neg h]
  · norm_num [readSetpointF, fracLower, MID_RAW, MIN_SET_F, MID_SET_F, stStale]
  · norm_num [loopIter, taskSampleTemperature, taskUpdateControl, readSetpointF,
      fracLower, MID_RAW, MIN_SET_F, MID_SET_F, stStale, sub32, U32,
      TEMP_SAMPLE_MS, CONTROL_UPDATE_MS, HYST_F, setDisplayState, classifyRegion,
      updateLEDs, updateLEDsW, regionPins, ledsInit, statusLedsInit, LED_UPDATE_MS]
  · norm_num [loopIter, taskSampleTemperature, taskUpdateControl, readSetpointF,
      fracLower, MID_RAW, MIN_SET_F, MID_SET_F, stStale, sub32, U32,
      TEMP_SAMPLE_MS, CONTROL_UPDATE_MS, HYST_F, setDisplayState, classifyRegion,
      updateLEDs, updateLEDsW, regionPins, ledsInit, statusLedsInit, LED_UPDATE_MS]
  · norm_num [loopIter, taskSampleTemperature, taskUpdateControl, readSetpointF,
      fracLower, MID_RAW, MIN_SET_F, MID_SET_F, stStale, sub32, U32,
      TEMP_SAMPLE_MS, CONTROL_UPDATE_MS, HYST_F, setDisplayState, classifyRegion,
      updateLEDs, updateLEDsW, regionPins, ledsInit, statusLedsInit, LED_UPDATE_MS]
    rfl

/-- C5 witness: a dial sample of 0 (lower branch) leaves the global state
untouched. -/
theorem readSetpointF_frame_effect_witness :
    (readSetpointF 0 st0).2 = st0 :=
  readSetpointF_frame_effect.1 0 st0 (by norm_num [MID_RAW])

end TempCtrl
